import Mathlib

/-!
Shallow embedding of the go-demo task scheduler ("my-scheduler-go").

Source files embedded here:
  internal/models/task.go            (Task, RetryPolicy, CanBeExecuted, IsTimeoutReached)
  internal/repository/task_repository.go (in-memory store, UpdateTaskStatus, UpdateTask)
  internal/scheduler/scheduler.go    (queueTask, addScheduledJob, processTaskQueue,
                                      checkTaskTimeouts)
  internal/scheduler: ConfigurationService (updateConfigurations, GetCurrentConfigurations)
  internal/scheduler: TaskExecutor.ExecuteTask (the guarded executor with retry policy)
  internal/mattermost: EventListener.shouldProcessEvent

Modelling conventions: Go `time.Time` values are natural-number instants (seconds);
Go `int` fields are `Int`; Go maps used as sets are `List String`; the float64
`BackoffFactor` is a rational (its value is never the subject of a claim; Go's
`time.Duration(float)` conversion truncates, modelled by `Rat.floor`).
-/

namespace SchedulerGo

/-! ## Data model (internal/models/task.go) -/

inductive TaskStatus
  | pending
  | queued
  | scheduled
  | running
  | done
  | failed
  | timeout
  | retry
  deriving DecidableEq, Repr

inductive TaskType
  | immediate
  | scheduled
  deriving DecidableEq, Repr

inductive TaskPriority
  | high
  | medium
  | low
  deriving DecidableEq, Repr

/-- `RetryPolicy` from task.go: MaxRetries (Go int), RetryDelay (duration, modelled
in nanoseconds as `Nat`), BackoffFactor (float64, modelled as `Rat`). -/
structure RetryPolicy where
  maxRetries : Int
  retryDelay : Nat
  backoffFactor : Rat
  deriving DecidableEq, Repr

/-- Values stored in the free-form `Metadata map[string]interface{}`: the code
stores an int under "retry_count" and a string under "original_task_id". -/
inductive MetaVal
  | intV (n : Int)
  | strV (s : String)
  deriving DecidableEq, Repr

abbrev Metadata := List (String × MetaVal)

/-- `Task` from task.go. `executionResult` abstracts the
`map[string]interface{}` result record as the value stored under "result"
(`none` = the map is nil, i.e. never present before first execution). -/
structure Task where
  id : String
  name : String := ""
  taskType : TaskType := .immediate
  cronExpr : String := ""
  status : TaskStatus := .pending
  createdAt : Nat := 0
  updatedAt : Nat := 0
  startTime : Nat := 0
  endTime : Nat := 0
  priority : TaskPriority := .medium
  metadata : Option Metadata := none
  tags : List String := []
  owner : String := ""
  dependencies : List String := []
  timeoutSeconds : Int := 0
  retryPolicy : Option RetryPolicy := none
  executionResult : Option String := none
  retryCount : Int := 0
  nextRunAt : Nat := 0
  deriving DecidableEq, Repr

/-- `Task.UpdateStatus`: sets the status and refreshes `UpdatedAt` (task.go). -/
def Task.UpdateStatus (t : Task) (newStatus : TaskStatus) (now : Nat) : Task :=
  { t with status := newStatus, updatedAt := now }

/-- `Task.CanBeExecuted(completedTaskIDs map[string]bool)` from task.go:
returns true when the dependency list is empty, otherwise false as soon as one
dependency id is missing from the completed set, true when all are present. -/
def Task.CanBeExecuted (t : Task) (completedTaskIDs : List String) : Bool :=
  if t.dependencies.length = 0 then
    true
  else
    t.dependencies.all (fun depID => completedTaskIDs.contains depID)

/-- `Task.IsTimeoutReached(startTime)` from task.go: false when
`TimeoutSeconds <= 0`, otherwise whether the time elapsed since `startTime`
exceeds the timeout (timestamps in seconds). -/
def Task.IsTimeoutReached (t : Task) (startTime now : Nat) : Bool :=
  if t.timeoutSeconds ≤ 0 then
    false
  else
    (now : Int) - (startTime : Int) > t.timeoutSeconds

/-! ## In-memory task repository (internal/repository/task_repository.go)

The `map[string]*models.Task` is modelled as a `List Task` keyed by `Task.id`.
`UpdateTaskStatus` and `UpdateTask` fail (return `none`) when the id is absent,
matching the `task not found` errors. -/

abbrev Repo := List Task

def Repo.getTaskByID (repo : Repo) (id : String) : Option Task :=
  repo.find? (fun t => t.id = id)

def Repo.updateTaskStatus (repo : Repo) (id : String) (newStatus : TaskStatus)
    (now : Nat) : Option Repo :=
  if repo.any (fun t => t.id = id) then
    some (repo.map (fun t => if t.id = id then t.UpdateStatus newStatus now else t))
  else
    none

def Repo.updateTask (repo : Repo) (task : Task) (now : Nat) : Option Repo :=
  if repo.any (fun t => t.id = task.id) then
    some (repo.map (fun t => if t.id = task.id then { task with updatedAt := now } else t))
  else
    none

/-- `GetCompletedTaskIDs`: the ids of all tasks whose status is DONE. -/
def Repo.getCompletedTaskIDs (repo : Repo) : List String :=
  (repo.filter (fun t => t.status = TaskStatus.done)).map Task.id

/-! ## Configuration service (ConfigurationService in the scheduler package) -/

/-- `updateConfigurations`: calls the fetcher; on error logs and returns with
the snapshot untouched; on success replaces the snapshot wholesale with the
fetched list (`s.configurations = configs`), empty or not. -/
def updateConfigurations {α : Type} (current : List α)
    (fetchResult : Except String (List α)) : List α :=
  match fetchResult with
  | Except.error _ => current
  | Except.ok configs => configs

/-- `GetCurrentConfigurations`: returns a copy of the current snapshot. -/
def GetCurrentConfigurations {α : Type} (configurations : List α) : List α :=
  configurations

/-! ## Event listener filtering (internal/mattermost: shouldProcessEvent) -/

structure Channel where
  id : String
  name : String := ""
  deriving DecidableEq, Repr

structure Event where
  type : String
  channel : Option Channel := none
  deriving DecidableEq, Repr

/-- A registered `EventFilter` (Go interface with `ShouldProcess(event) bool`). -/
structure EventFilter where
  ShouldProcess : Event → Bool

/-- `EventListener.shouldProcessEvent`: with no registered filters every event
passes; otherwise the filters are tried in order and the event passes as soon
as one filter's ShouldProcess returns true, failing only when all refuse. -/
def shouldProcessEvent (filters : List EventFilter) (event : Event) : Bool :=
  if filters.length = 0 then
    true
  else
    filters.any (fun filter => filter.ShouldProcess event)

/-! ## Scheduler (internal/scheduler/scheduler.go)

`queueTask` and `addScheduledJob` are modelled as state transformers over the
repository, the in-memory ready queue (`List Task`, append = arrival order)
and the cron bookkeeping. Persistence failures make the operation return with
the remaining state untouched, as in the source (log and return). -/

/-- `queueTask`: first rewrites the stored status to QUEUED (returning
unchanged if the repository does not know the id), then appends the task to
the ready queue unless an entry with the same id is already queued. -/
def queueTask (now : Nat) (repo : Repo) (taskQueue : List Task) (task : Task) :
    Repo × List Task :=
  match repo.updateTaskStatus task.id TaskStatus.queued now with
  | none => (repo, taskQueue)
  | some repo1 =>
    if taskQueue.any (fun t => t.id = task.id) then
      (repo1, taskQueue)
    else
      (repo1, taskQueue ++ [task])

/-- Scheduler-private cron bookkeeping: the `cronJobs : map[string]cron.EntryID`
table, the set of entries registered in the cron engine (entry id with its
cron expression), and the engine's next fresh entry id. -/
structure CronState where
  repo : Repo
  cronJobs : List (String × Nat)
  cronEntries : List (Nat × String)
  nextEntryID : Nat
  deriving DecidableEq, Repr

/-- `addScheduledJob`: returns immediately when the task id already has a cron
entry; otherwise marks the stored task SCHEDULED (returning on a persistence
failure) and registers a fresh cron entry, recording it in `cronJobs`.
The `cron.AddFunc` parse of the expression is modelled as succeeding; the
parse-failure branch (mark FAILED) is not exercised by any claim. -/
def addScheduledJob (now : Nat) (st : CronState) (task : Task) : CronState :=
  match st.cronJobs.lookup task.id with
  | some _ => st
  | none =>
    match st.repo.updateTaskStatus task.id TaskStatus.scheduled now with
    | none => st
    | some repo1 =>
      { repo := repo1
        cronJobs := st.cronJobs ++ [(task.id, st.nextEntryID)]
        cronEntries := st.cronEntries ++ [(st.nextEntryID, task.cronExpr)]
        nextEntryID := st.nextEntryID + 1 }

/-! ### Queue processing (processTaskQueue) -/

/-- The priority weights of the `sort.SliceStable` comparator:
HIGH maps to 0, MEDIUM to 1, LOW to 2. -/
def priorityOrder : TaskPriority → Nat
  | TaskPriority.high => 0
  | TaskPriority.medium => 1
  | TaskPriority.low => 2

/-- The `less(i, j)` comparator of the stable sort. -/
def taskLess (a b : Task) : Bool :=
  priorityOrder a.priority < priorityOrder b.priority

/-- Stable insertion: `x` goes in front of the first element it is not
strictly greater than in weight, so ties keep arrival order. -/
def insertByPriority (x : Task) : List Task → List Task
  | [] => [x]
  | y :: ys => if taskLess y x then y :: insertByPriority x ys else x :: y :: ys

/-- The `sort.SliceStable` call of processTaskQueue: a stable sort of the
ready queue by ascending priority weight. -/
def sortQueueByPriority : List Task → List Task
  | [] => []
  | x :: xs => insertByPriority x (sortQueueByPriority xs)

/-- The dispatch loop of processTaskQueue: walks the sorted queue with the
`processed` counter; an executable task is dispatched while
`processed < availableSlots` and retained otherwise; a task whose
dependencies are unsatisfied is always retained. Returns the dispatched tasks
in dispatch order and the remaining queue. -/
def dispatchLoop (availableSlots : Int) (completedTasks : List String) :
    Nat → List Task → List Task × List Task
  | _, [] => ([], [])
  | processed, task :: rest =>
    if task.CanBeExecuted completedTasks then
      if (processed : Int) < availableSlots then
        let result := dispatchLoop availableSlots completedTasks (processed + 1) rest
        (task :: result.1, result.2)
      else
        let result := dispatchLoop availableSlots completedTasks processed rest
        (result.1, task :: result.2)
    else
      let result := dispatchLoop availableSlots completedTasks processed rest
      (result.1, task :: result.2)

/-- `processTaskQueue`: empty queue is a no-op; otherwise the queue is
stable-sorted by priority, `availableSlots = maxConcurrency - running` is
computed once, a non-positive slot count dispatches nothing (leaving the
sorted queue in place), and otherwise the dispatch loop runs. `running` is
the current size of the `runningTasks` set. -/
def processTaskQueue (maxConcurrency : Int) (running : Nat)
    (completedTasks : List String) (taskQueue : List Task) :
    List Task × List Task :=
  if taskQueue.length = 0 then
    ([], [])
  else
    let sorted := sortQueueByPriority taskQueue
    let availableSlots : Int := maxConcurrency - (running : Int)
    if availableSlots ≤ 0 then
      ([], sorted)
    else
      dispatchLoop availableSlots completedTasks 0 sorted

/-! ## Scheduler transition system

The concurrent loops of SchedulerService act on the shared state: the ready
queue, the `runningTasks` set (in-flight: dispatched, not yet completed) and
the set of DONE task ids. A `cycle` step is one processTaskQueue invocation
(the dispatched tasks enter the running set as their goroutines start), an
`enqueue` step is a queueTask arrival, and a `finish` step is one in-flight
execution completing (executeTask removing the id from runningTasks). -/

structure SchedState where
  taskQueue : List Task
  runningTasks : List String
  completedTasks : List String

inductive SchedStep (maxConcurrency : Int) : SchedState → SchedState → Prop
  | enqueue (s : SchedState) (repo : Repo) (now : Nat) (task : Task) :
      SchedStep maxConcurrency s
        { s with taskQueue := (queueTask now repo s.taskQueue task).2 }
  | cycle (s : SchedState) :
      SchedStep maxConcurrency s
        { taskQueue :=
            (processTaskQueue maxConcurrency s.runningTasks.length
              s.completedTasks s.taskQueue).2
          runningTasks :=
            s.runningTasks ++
              (processTaskQueue maxConcurrency s.runningTasks.length
                s.completedTasks s.taskQueue).1.map Task.id
          completedTasks := s.completedTasks }
  | finish (s : SchedState) (id : String) (h : id ∈ s.runningTasks) :
      SchedStep maxConcurrency s
        { s with
          runningTasks := s.runningTasks.erase id
          completedTasks := id :: s.completedTasks }

/-- States reachable from a start state with no in-flight task, under any
arrival pattern and any interleaving of the loops. -/
inductive Reachable (maxConcurrency : Int) : SchedState → Prop
  | init (taskQueue : List Task) (completedTasks : List String) :
      Reachable maxConcurrency ⟨taskQueue, [], completedTasks⟩
  | step (s s' : SchedState) (hs : Reachable maxConcurrency s)
      (hstep : SchedStep maxConcurrency s s') : Reachable maxConcurrency s'

/-! ## Task executor with retry (TaskExecutor.ExecuteTask, the guarded variant
in the scheduler package)

`handlerErr` is the outcome of the matched (or default) handler: `some e`
means the handler returned error `e`. The function returns the error returned
to the caller together with the task record as persisted (unchanged when the
guard rejects the call before any mutation). -/

def ExecuteTask (now : Nat) (handlerErr : Option String) (t : Task) :
    Option String × Task :=
  if t.status ≠ TaskStatus.pending ∧ t.status ≠ TaskStatus.retry then
    (some "task not in executable state", t)
  else
    let t1 : Task := { t with status := TaskStatus.running, startTime := now }
    let result : String :=
      match handlerErr with
      | some e => "Error: " ++ e
      | none => "Success"
    let t2 : Task :=
      { t1 with endTime := now, executionResult := some result,
                status := TaskStatus.done }
    let t3 : Task :=
      match handlerErr with
      | none => t2
      | some _ =>
        let tFailed : Task := { t2 with status := TaskStatus.failed }
        match t.retryPolicy with
        | some policy =>
          if t.retryCount < policy.maxRetries then
            { tFailed with
              retryCount := t.retryCount + 1
              status := TaskStatus.retry
              nextRunAt := now + policy.retryDelay * policy.backoffFactor.floor.toNat }
          else
            tFailed
        | none => tFailed
    (none, { t3 with updatedAt := now })

/-- Repeated execution of a task whose handler always fails: the scheduler
keeps re-running the task while it is in an executable state (PENDING or
RETRY, the re-enqueue of a RETRY task modelled as immediate). Returns the
number of times the execution path actually ran together with the final task
record; `fuel` bounds the recursion. -/
def runFailingAttempts (handlerError : String) :
    Nat → Task → Nat × Task
  | 0, t => (0, t)
  | fuel + 1, t =>
    if t.status = TaskStatus.pending ∨ t.status = TaskStatus.retry then
      let t1 := (ExecuteTask 0 (some handlerError) t).2
      let rest := runFailingAttempts handlerError fuel t1
      (rest.1 + 1, rest.2)
    else
      (0, t)

/-! ## Timeout supervision (checkTaskTimeouts) -/

/-- The `retryCount, ok := taskCopy.Metadata["retry_count"].(int)` read:
0 when the metadata map is nil, the key is absent, or the value is not an
int. -/
def metadataRetryCount (m : Option Metadata) : Int :=
  match m with
  | none => 0
  | some md =>
    match md.lookup "retry_count" with
    | some (MetaVal.intV n) => n
    | _ => 0

/-- Store a key in a metadata map, replacing any existing entry. -/
def metaSet (md : Metadata) (key : String) (v : MetaVal) : Metadata :=
  if md.any (fun kv => kv.1 = key) then
    md.map (fun kv => if kv.1 = key then (key, v) else kv)
  else
    md ++ [(key, v)]

/-- One task's pass through `checkTaskTimeouts`: for a RUNNING task with a
positive timeout whose elapsed time since `updatedAt` exceeds it, the stored
status becomes TIMEOUT; then, when a retry policy with `MaxRetries > 0`
exists and the metadata retry count is still below `MaxRetries`, the count is
bumped, the task is updated and set to RETRY, and a delayed re-enqueue of the
task copy is scheduled; otherwise the task is marked FAILED. Returns the
successive stored statuses written for this task and the copy handed to the
delayed `queueTask` goroutine (if any). -/
def checkTaskTimeouts1 (now : Nat) (t : Task) : List TaskStatus × Option Task :=
  if t.status = TaskStatus.running ∧ t.timeoutSeconds > 0 then
    if t.IsTimeoutReached t.updatedAt now then
      let stored : Task := t.UpdateStatus TaskStatus.timeout now
      match t.retryPolicy with
      | some policy =>
        if policy.maxRetries > 0 then
          let taskCopy := stored
          let retryCount := metadataRetryCount taskCopy.metadata
          if retryCount < policy.maxRetries then
            let md : Metadata :=
              match taskCopy.metadata with
              | none => []
              | some m => m
            let updated : Task :=
              { taskCopy with
                metadata := some (metaSet
                  (metaSet md "retry_count" (MetaVal.intV (retryCount + 1)))
                  "original_task_id" (MetaVal.strV t.id))
                updatedAt := now }
            ([TaskStatus.timeout, TaskStatus.retry],
              some (updated.UpdateStatus TaskStatus.retry now))
          else
            ([TaskStatus.timeout, TaskStatus.failed], none)
        else
          ([TaskStatus.timeout, TaskStatus.failed], none)
      | none =>
        ([TaskStatus.timeout, TaskStatus.failed], none)
    else
      ([], none)
  else
    ([], none)

/-- The full status trace of one timeout-supervision pass followed by the
delayed re-enqueue: when a retry was scheduled, the copy's stored status is
rewritten to QUEUED by `queueTask` once the retry delay has elapsed. -/
def timeoutStatusTrace (now : Nat) (t : Task) : List TaskStatus :=
  let pass := checkTaskTimeouts1 now t
  match pass.2 with
  | some _ => pass.1 ++ [TaskStatus.queued]
  | none => pass.1

/-! ## Helper lemmas -/

theorem dispatchLoop_length_le (a : Int) (c : List String) (l : List Task) :
    ∀ (p : Nat), (((dispatchLoop a c p l).1.length : Int)) ≤ max (a - p) 0 := by
  induction l with
  | nil => intro p; simp [dispatchLoop]
  | cons t ts ih =>
    intro p
    simp only [dispatchLoop]
    split
    · split
      · have := ih (p + 1)
        simp only [List.length_cons]
        push_cast at this ⊢
        omega
      · have := ih p
        simpa using this
    · have := ih p
      simpa using this

theorem processTaskQueue_length_le (mc : Int) (running : Nat) (c : List String)
    (q : List Task) :
    ((processTaskQueue mc running c q).1.length : Int) ≤
      max (mc - (running : Int)) 0 := by
  unfold processTaskQueue
  split
  · simp
  · dsimp only
    split
    · simp
    · have := dispatchLoop_length_le (mc - (running : Int)) c (sortQueueByPriority q) 0
      simpa using this

theorem reachable_running_bound (mc : Int) (h0 : 0 ≤ mc) :
    ∀ s, Reachable mc s → (s.runningTasks.length : Int) ≤ mc := by
  intro s hs
  induction hs with
  | init q c => simpa using h0
  | step s s' hs hstep ih =>
    cases hstep with
    | enqueue repo now task => simpa using ih
    | cycle =>
      have hd := processTaskQueue_length_le mc s.runningTasks.length
        s.completedTasks s.taskQueue
      simp only [List.length_append, List.length_map]
      push_cast at ih hd ⊢
      omega
    | finish id hmem =>
      have : (s.runningTasks.erase id).length ≤ s.runningTasks.length :=
        (List.erase_sublist id s.runningTasks).length_le
      simp only []
      push_cast at ih ⊢
      omega

/-! ## Claim theorems -/

/-- C1: in every reachable state of the scheduler transition system (any
arrival pattern, any interleaving of enqueue, queue-processing cycles and
completions) the number of in-flight tasks never exceeds `maxConcurrency`;
and each processTaskQueue cycle dispatches at most
`availableSlots = maxConcurrency - running` tasks (none when the difference
is non-positive). -/
theorem concurrency_never_exceeded (mc : Int) (h0 : 0 ≤ mc) :
    (∀ s, Reachable mc s → (s.runningTasks.length : Int) ≤ mc) ∧
    (∀ (running : Nat) (completed : List String) (q : List Task),
      ((processTaskQueue mc running completed q).1.length : Int) ≤
        max (mc - (running : Int)) 0) :=
  ⟨reachable_running_bound mc h0,
   fun running completed q => processTaskQueue_length_le mc running completed q⟩

theorem concurrency_never_exceeded_witness :
    ((⟨[], [], []⟩ : SchedState).runningTasks.length : Int) ≤ 3 ∧
    ((processTaskQueue 3 0 [] [{ id := "w1" }]).1.length : Int) ≤
      max ((3 : Int) - ((0 : Nat) : Int)) 0 :=
  ⟨(concurrency_never_exceeded 3 (by decide)).1 _ (Reachable.init [] []),
   (concurrency_never_exceeded 3 (by decide)).2 0 [] [{ id := "w1" }]⟩

/-- C2: with tasks of priorities [LOW, HIGH, MEDIUM, HIGH] queued in that
arrival order, no dependencies, no task running and `maxConcurrency ≥ 4`,
one processTaskQueue cycle dispatches exactly [HIGH, HIGH, MEDIUM, LOW] with
the two HIGH tasks in their arrival order, and empties the queue. -/
theorem priority_dispatch_order (mc : Int) (h : 4 ≤ mc) :
    processTaskQueue mc 0 []
      [{ id := "T-low", priority := TaskPriority.low },
       { id := "T-high-first", priority := TaskPriority.high },
       { id := "T-medium", priority := TaskPriority.medium },
       { id := "T-high-second", priority := TaskPriority.high }]
      = ([{ id := "T-high-first", priority := TaskPriority.high },
          { id := "T-high-second", priority := TaskPriority.high },
          { id := "T-medium", priority := TaskPriority.medium },
          { id := "T-low", priority := TaskPriority.low }], []) := by
  simp only [processTaskQueue, sortQueueByPriority, insertByPriority, taskLess,
    priorityOrder, dispatchLoop, Task.CanBeExecuted]
  norm_num
  split_ifs <;> first | rfl | omega

theorem priority_dispatch_order_witness :
    processTaskQueue 4 0 []
      [{ id := "T-low", priority := TaskPriority.low },
       { id := "T-high-first", priority := TaskPriority.high },
       { id := "T-medium", priority := TaskPriority.medium },
       { id := "T-high-second", priority := TaskPriority.high }]
      = ([{ id := "T-high-first", priority := TaskPriority.high },
          { id := "T-high-second", priority := TaskPriority.high },
          { id := "T-medium", priority := TaskPriority.medium },
          { id := "T-low", priority := TaskPriority.low }], []) :=
  priority_dispatch_order 4 (by decide)

/-- C3: a PENDING task with a retry policy of `max_retries = 2` whose handler
always fails runs exactly 3 times (1 initial + 2 retries) and ends FAILED;
in general, with a policy set, ExecuteTask never pushes `retry_count` above
`max_retries`, and with no policy `retry_count` is never changed and the task
never enters RETRY. -/
theorem retry_bound :
    (∀ (t : Task) (p : RetryPolicy) (e : String),
      t.status = TaskStatus.pending → t.retryPolicy = some p →
      p.maxRetries = 2 → t.retryCount = 0 →
      (runFailingAttempts e 10 t).1 = 3 ∧
      (runFailingAttempts e 10 t).2.status = TaskStatus.failed) ∧
    (∀ (now : Nat) (he : Option String) (t : Task) (p : RetryPolicy),
      t.retryPolicy = some p → t.retryCount ≤ p.maxRetries →
      (ExecuteTask now he t).2.retryCount ≤ p.maxRetries) ∧
    (∀ (now : Nat) (he : Option String) (t : Task),
      t.retryPolicy = none →
      (ExecuteTask now he t).2.retryCount = t.retryCount ∧
      (ExecuteTask now he t).2.status ≠ TaskStatus.retry) := by
  refine ⟨?_, ?_, ?_⟩
  · intro t p e h1 h2 h3 h4
    simp [runFailingAttempts, ExecuteTask, h1, h2, h3, h4]
  · intro now he t p hp hle
    unfold ExecuteTask
    split
    · simpa using hle
    · dsimp only
      cases he with
      | none => simpa using hle
      | some e =>
        simp only [hp]
        split
        · simpa using (by omega : t.retryCount + 1 ≤ p.maxRetries)
        · simpa using hle
  · intro now he t hp
    unfold ExecuteTask
    split
    · rename_i hguard
      refine ⟨rfl, ?_⟩
      simpa using hguard.2
    · dsimp only
      cases he with
      | none => simp
      | some e => simp [hp]

theorem retry_bound_witness :
    ((runFailingAttempts "boom" 10
        { id := "r", status := TaskStatus.pending,
          retryPolicy := some { maxRetries := 2, retryDelay := 1,
                                backoffFactor := 1 } }).1 = 3 ∧
     (runFailingAttempts "boom" 10
        { id := "r", status := TaskStatus.pending,
          retryPolicy := some { maxRetries := 2, retryDelay := 1,
                                backoffFactor := 1 } }).2.status
        = TaskStatus.failed) ∧
    (ExecuteTask 0 (some "boom")
        { id := "r", status := TaskStatus.pending,
          retryPolicy := some { maxRetries := 2, retryDelay := 1,
                                backoffFactor := 1 } }).2.retryCount ≤ 2 ∧
    ((ExecuteTask 0 (some "boom")
        { id := "n", status := TaskStatus.pending }).2.retryCount =
      ({ id := "n", status := TaskStatus.pending } : Task).retryCount ∧
     (ExecuteTask 0 (some "boom")
        { id := "n", status := TaskStatus.pending }).2.status
        ≠ TaskStatus.retry) :=
  ⟨retry_bound.1 _ { maxRetries := 2, retryDelay := 1, backoffFactor := 1 }
      "boom" rfl rfl rfl rfl,
   retry_bound.2.1 0 (some "boom") _
      { maxRetries := 2, retryDelay := 1, backoffFactor := 1 } rfl (by decide),
   retry_bound.2.2 0 (some "boom") _ rfl⟩

/-- C4: CanBeExecuted is true for every completed-set when the dependency
list is empty, and for a non-empty dependency list it is true exactly when
every dependency id is in the completed set. -/
theorem canBeExecuted_spec :
    (∀ (t : Task) (completed : List String), t.dependencies = [] →
      t.CanBeExecuted completed = true) ∧
    (∀ (t : Task) (completed : List String), t.dependencies ≠ [] →
      (t.CanBeExecuted completed = true ↔
        ∀ d ∈ t.dependencies, d ∈ completed)) := by
  constructor
  · intro t completed h
    simp [Task.CanBeExecuted, h]
  · intro t completed h
    simp [Task.CanBeExecuted, List.length_eq_zero, h, List.all_eq_true]

theorem canBeExecuted_spec_witness :
    (({ id := "a" } : Task).CanBeExecuted ["x"] = true) ∧
    (({ id := "b", dependencies := ["d1"] } : Task).CanBeExecuted ["d1"] = true ↔
      ∀ d ∈ ({ id := "b", dependencies := ["d1"] } : Task).dependencies,
        d ∈ ["d1"]) :=
  ⟨canBeExecuted_spec.1 { id := "a" } ["x"] rfl,
   canBeExecuted_spec.2 { id := "b", dependencies := ["d1"] } ["d1"] (by decide)⟩

/-- C5: a RUNNING task with `timeout_seconds = 1` and a retry policy that
still has retries remaining, observed by the timeout supervisor after the
breach, has its stored status follow TIMEOUT, then RETRY, then QUEUED once
the delayed re-enqueue fires; FAILED never appears in the trace. -/
theorem timeout_retry_path (now : Nat) (t : Task) (p : RetryPolicy)
    (h1 : t.status = TaskStatus.running)
    (h2 : t.timeoutSeconds = 1)
    (h3 : t.retryPolicy = some p)
    (h4 : 0 < p.maxRetries)
    (h5 : metadataRetryCount t.metadata < p.maxRetries)
    (h6 : (now : Int) - (t.updatedAt : Int) > 1) :
    timeoutStatusTrace now t =
      [TaskStatus.timeout, TaskStatus.retry, TaskStatus.queued] ∧
    TaskStatus.failed ∉ timeoutStatusTrace now t := by
  simp [timeoutStatusTrace, checkTaskTimeouts1, Task.IsTimeoutReached,
    Task.UpdateStatus, h1, h2, h3, h4, h5, h6]

theorem timeout_retry_path_witness :
    timeoutStatusTrace 2
      { id := "t", status := TaskStatus.running, timeoutSeconds := 1,
        updatedAt := 0,
        retryPolicy := some { maxRetries := 3, retryDelay := 1,
                              backoffFactor := 2 } } =
      [TaskStatus.timeout, TaskStatus.retry, TaskStatus.queued] ∧
    TaskStatus.failed ∉ timeoutStatusTrace 2
      { id := "t", status := TaskStatus.running, timeoutSeconds := 1,
        updatedAt := 0,
        retryPolicy := some { maxRetries := 3, retryDelay := 1,
                              backoffFactor := 2 } } :=
  timeout_retry_path 2 _ { maxRetries := 3, retryDelay := 1, backoffFactor := 2 }
    rfl rfl rfl (by decide) (by decide) (by decide)

/-- C6 counterexample: starting from a loaded snapshot ["cfg1"], a successful
fetch returning the empty list leaves GetCurrentConfigurations returning [],
not the prior snapshot — the code replaces the snapshot wholesale on every
successful fetch, empty or not. -/
theorem empty_fetch_erases_counterexample :
    ¬ (GetCurrentConfigurations
        (updateConfigurations ["cfg1"] (Except.ok ([] : List String)))
      = ["cfg1"]) := by
  decide

/-- C6 amended: only a fetch *error* keeps the previous snapshot; every
successful fetch, including one returning the empty list, replaces the
snapshot wholesale, so GetCurrentConfigurations afterwards returns exactly
the fetched list. -/
theorem config_replacement_spec :
    (∀ (current : List String) (e : String),
      GetCurrentConfigurations (updateConfigurations current (Except.error e))
        = current) ∧
    (∀ (current fetched : List String),
      GetCurrentConfigurations (updateConfigurations current (Except.ok fetched))
        = fetched) :=
  ⟨fun _ _ => rfl, fun _ _ => rfl⟩

/-- C7: ExecuteTask called on a task whose status is neither PENDING nor
RETRY returns the InvalidState error and persists no change: the task record
is exactly as before the call. -/
theorem executor_rejects_nonexecutable (now : Nat) (he : Option String)
    (t : Task)
    (h1 : t.status ≠ TaskStatus.pending) (h2 : t.status ≠ TaskStatus.retry) :
    (ExecuteTask now he t).1 = some "task not in executable state" ∧
    (ExecuteTask now he t).2 = t := by
  simp [ExecuteTask, h1, h2]

theorem executor_rejects_nonexecutable_witness :
    (ExecuteTask 5 none { id := "t1", status := TaskStatus.done }).1 =
      some "task not in executable state" ∧
    (ExecuteTask 5 none { id := "t1", status := TaskStatus.done }).2 =
      { id := "t1", status := TaskStatus.done } :=
  executor_rejects_nonexecutable 5 none _ (by decide) (by decide)

theorem lookup_none_filter_nil (l : List (String × Nat)) (k : String)
    (h : l.lookup k = none) : l.filter (fun kv => kv.1 = k) = [] := by
  induction l with
  | nil => rfl
  | cons x xs ih =>
    obtain ⟨a, b⟩ := x
    by_cases hk : k = a
    · subst hk
      simp [List.lookup] at h
    · have hbeq : (k == a) = false := beq_false_of_ne hk
      simp only [List.lookup, hbeq] at h
      have ha : ¬(a = k) := fun hh => hk hh.symm
      simp [List.filter, ha, ih h]

theorem lookup_append_self (l : List (String × Nat)) (k : String) (v : Nat)
    (h : l.lookup k = none) : (l ++ [(k, v)]).lookup k = some v := by
  induction l with
  | nil => simp [List.lookup]
  | cons x xs ih =>
    obtain ⟨a, b⟩ := x
    by_cases hk : k = a
    · subst hk
      simp [List.lookup] at h
    · have hbeq : (k == a) = false := beq_false_of_ne hk
      simp only [List.lookup, hbeq] at h
      rw [List.cons_append]
      simp only [List.lookup, hbeq]
      exact ih h

/-- C8: registering the same task id twice leaves exactly one cron entry for
it: after a first successful registration (id previously absent, task known
to the store), the cron-job mapping holds exactly one entry for the id and
one new cron-table entry exists, and a second addScheduledJob call for the
same id returns with the whole state (cron table, mapping, stored statuses)
unchanged. -/
theorem addScheduledJob_idempotent (now now2 : Nat) (st : CronState)
    (task : Task)
    (h1 : st.cronJobs.lookup task.id = none)
    (h2 : st.repo.any (fun t => t.id = task.id) = true) :
    ((addScheduledJob now st task).cronJobs.filter
        (fun kv => kv.1 = task.id)).length = 1 ∧
    (addScheduledJob now st task).cronEntries.length =
      st.cronEntries.length + 1 ∧
    addScheduledJob now2 (addScheduledJob now st task) task =
      addScheduledJob now st task := by
  have hupd : st.repo.updateTaskStatus task.id TaskStatus.scheduled now =
      some (st.repo.map (fun t =>
        if t.id = task.id then t.UpdateStatus TaskStatus.scheduled now else t)) := by
    simp [Repo.updateTaskStatus, h2]
  have hfilter := lookup_none_filter_nil st.cronJobs task.id h1
  have hlookup := lookup_append_self st.cronJobs task.id st.nextEntryID h1
  refine ⟨?_, ?_, ?_⟩
  · simp [addScheduledJob, h1, hupd, List.filter_append, hfilter]
  · simp [addScheduledJob, h1, hupd]
  · conv_lhs => rw [addScheduledJob]
    simp [addScheduledJob, h1, hupd, hlookup]

/-- A concrete SCHEDULED task and initial cron state used to exercise
addScheduledJob at a concrete input. -/
def cronDemoTask : Task :=
  { id := "c1", taskType := TaskType.scheduled, cronExpr := "0 * * * * *" }

def cronDemoState : CronState :=
  { repo := [cronDemoTask], cronJobs := [], cronEntries := [], nextEntryID := 0 }

theorem addScheduledJob_idempotent_witness :
    ((addScheduledJob 1 cronDemoState cronDemoTask).cronJobs.filter
        (fun kv => kv.1 = cronDemoTask.id)).length = 1 ∧
    (addScheduledJob 1 cronDemoState cronDemoTask).cronEntries.length =
      cronDemoState.cronEntries.length + 1 ∧
    addScheduledJob 2 (addScheduledJob 1 cronDemoState cronDemoTask)
        cronDemoTask =
      addScheduledJob 1 cronDemoState cronDemoTask :=
  addScheduledJob_idempotent 1 2 cronDemoState cronDemoTask rfl (by decide)

/-- C9: the listener's filtering accepts every event when no filters are
registered, and with at least one filter registered it accepts an event
exactly when some registered filter's ShouldProcess returns true. -/
theorem shouldProcessEvent_spec :
    (∀ (e : Event), shouldProcessEvent [] e = true) ∧
    (∀ (filters : List EventFilter) (e : Event), filters ≠ [] →
      (shouldProcessEvent filters e = true ↔
        ∃ f ∈ filters, f.ShouldProcess e = true)) := by
  constructor
  · intro e
    rfl
  · intro filters e h
    simp [shouldProcessEvent, List.length_eq_zero, h, List.any_eq_true]

theorem shouldProcessEvent_spec_witness :
    (shouldProcessEvent [] { type := "posted" } = true) ∧
    (shouldProcessEvent [{ ShouldProcess := fun _ => true }]
        { type := "posted" } = true ↔
      ∃ f ∈ [({ ShouldProcess := fun _ => true } : EventFilter)],
        f.ShouldProcess { type := "posted" } = true) :=
  ⟨shouldProcessEvent_spec.1 { type := "posted" },
   shouldProcessEvent_spec.2 [{ ShouldProcess := fun _ => true }]
     { type := "posted" } (by simp)⟩

theorem find?_updateStatus (repo : Repo) (id : String) (stn : TaskStatus)
    (now : Nat) (h : repo.any (fun t => t.id = id) = true) :
    ((repo.map (fun t => if t.id = id then t.UpdateStatus stn now else t)).find?
      (fun t => t.id = id)).map Task.status = some stn := by
  induction repo with
  | nil => simp at h
  | cons t ts ih =>
    by_cases ht : t.id = id
    · simp [List.find?, ht, Task.UpdateStatus]
    · have hts : (ts.any fun x => decide (x.id = id)) = true := by
        simpa [ht] using h
      have hd : decide (t.id = id) = false := decide_eq_false ht
      simp only [List.map_cons, if_neg ht, List.find?, hd]
      exact ih hts

/-- C10: queueTask leaves the ready queue unchanged when an entry with the
same task id is already queued, preserves the no-duplicate-ids invariant of
the queue in every case, and rewrites the stored status of a known task to
QUEUED even when the duplicate check then suppresses the append. -/
theorem queueTask_no_duplicate :
    (∀ (now : Nat) (repo : Repo) (queue : List Task) (t : Task),
      (queue.any (fun q => q.id = t.id)) = true →
      (queueTask now repo queue t).2 = queue) ∧
    (∀ (now : Nat) (repo : Repo) (queue : List Task) (t : Task),
      (queue.map Task.id).Nodup →
      ((queueTask now repo queue t).2.map Task.id).Nodup) ∧
    (∀ (now : Nat) (repo : Repo) (queue : List Task) (t : Task),
      repo.any (fun x => x.id = t.id) = true →
      (((queueTask now repo queue t).1.find? (fun x => x.id = t.id)).map
        Task.status) = some TaskStatus.queued) := by
  refine ⟨?_, ?_, ?_⟩
  · intro now repo queue t hq
    unfold queueTask
    cases hupd : repo.updateTaskStatus t.id TaskStatus.queued now with
    | none => rfl
    | some repo1 => simp [hq]
  · intro now repo queue t hnd
    unfold queueTask
    cases hupd : repo.updateTaskStatus t.id TaskStatus.queued now with
    | none => exact hnd
    | some repo1 =>
      by_cases hq : (queue.any (fun q => q.id = t.id)) = true
      · simpa [hq] using hnd
      · have hnotmem : t.id ∉ queue.map Task.id := by
          intro hmem
          apply hq
          simp only [List.any_eq_true, decide_eq_true_eq]
          obtain ⟨x, hx, hxid⟩ := List.mem_map.mp hmem
          exact ⟨x, hx, hxid⟩
        simp only [hq, if_false, Bool.not_eq_true] at *
        simp [hq, List.nodup_append, hnd, hnotmem]
  · intro now repo queue t hrepo
    have hfind := find?_updateStatus repo t.id TaskStatus.queued now hrepo
    unfold queueTask Repo.updateTaskStatus
    rw [if_pos hrepo]
    dsimp only
    by_cases hq : (queue.any (fun q => q.id = t.id)) = true
    · rw [if_pos hq]
      exact hfind
    · rw [if_neg hq]
      exact hfind

theorem queueTask_no_duplicate_witness :
    ((queueTask 1 [{ id := "q1" }] [{ id := "q1" }] { id := "q1" }).2 =
      [{ id := "q1" }]) ∧
    (((queueTask 1 [{ id := "q1" }] [{ id := "q1" }] { id := "q1" }).2.map
        Task.id).Nodup) ∧
    ((((queueTask 1 [{ id := "q1" }] [{ id := "q1" }]
        { id := "q1" }).1.find? (fun x => x.id = "q1")).map Task.status) =
      some TaskStatus.queued) :=
  ⟨queueTask_no_duplicate.1 1 [{ id := "q1" }] [{ id := "q1" }]
      { id := "q1" } (by decide),
   queueTask_no_duplicate.2.1 1 [{ id := "q1" }] [{ id := "q1" }]
      { id := "q1" } (by decide),
   queueTask_no_duplicate.2.2 1 [{ id := "q1" }] [{ id := "q1" }]
      { id := "q1" } (by decide)⟩

end SchedulerGo
